import Mathlib

/-!
# Verification of `chcheck.py`

A shallow embedding of the `chcheck` tool (`src/chcheck.py`), which compares
the externally visible function definitions of a C file against the function
declarations of the corresponding header file.

The external pycparser library is modelled as an oracle producing syntax
trees (`Node`), and the filesystem as an oracle (`Env`).  The program's own
logic — the two `NodeVisitor` subclasses, the symbol-list diff, the cpp
argument assembly, the pycparser fake-libc discovery, and the CLI driver —
is embedded faithfully, statement by statement.

pycparser's `NodeVisitor.visit` dispatches on the node's class: when the
visitor defines a `visit_<Class>` method it is called and, unless that
method itself recurses, the node's children are *not* traversed; otherwise
`generic_visit` recurses into all children.  `FuncDefVisitor` overrides only
`visit_FuncDef` and `FuncDeclVisitor` overrides only `visit_FuncDecl`, and
neither override recurses, which the embedding reproduces.
-/

namespace Chcheck

/-- The `.type` chain hanging off a pycparser `FuncDecl` node: a finite stack
of `PtrDecl` wrappers ending in a leaf node.  The leaf's `declname` is
`none` when the leaf node class has no `declname` attribute (reading it in
Python raises `AttributeError`). -/
inductive TypeChain where
  | ptrDecl (inner : TypeChain)
  | leaf (declname : Option String)
deriving Repr, DecidableEq

/-- `FuncDeclVisitor.declname` (src/chcheck.py lines 80–84): follow
`PtrDecl` wrappers to the innermost node and read its `declname`.
A `none` result models the `AttributeError` raised when the innermost
node lacks the attribute. -/
def declname : TypeChain → Option String
  | .ptrDecl inner => declname inner
  | .leaf dn => dn

/-- A pycparser syntax-tree node, restricted to the facets `chcheck` reads:
`funcDef` carries `node.coord.file`, `node.decl.name` and
`node.decl.storage`; `funcDecl` carries `node.coord.file` and the
`node.type` chain used by `declname`.  Every other node class is `other`.
Each node carries the child list that `generic_visit` would traverse. -/
inductive Node where
  | funcDef (coordFile : String) (declName : String) (storage : List String)
      (children : List Node)
  | funcDecl (coordFile : String) (ty : TypeChain) (children : List Node)
  | other (children : List Node)
deriving Repr

mutual
/-- The symbol list produced by `FuncDefVisitor` (src/chcheck.py lines
55–66) started on a node: a `FuncDef` node appends `node.decl.name` when
its coordinate file equals the visitor's filename and `"static"` is not in
`node.decl.storage`, and (having a `visit_FuncDef` handler) is never
recursed into; all other nodes are traversed generically. -/
def visitDefs (filename : String) : Node → List String
  | .funcDef coordFile declName storage _ =>
      if coordFile = filename ∧ "static" ∉ storage then [declName] else []
  | .funcDecl _ _ children => visitDefsList filename children
  | .other children => visitDefsList filename children

/-- `generic_visit` for `FuncDefVisitor`: visit each child in order. -/
def visitDefsList (filename : String) : List Node → List String
  | [] => []
  | n :: ns => visitDefs filename n ++ visitDefsList filename ns
end

mutual
/-- The symbol list produced by `FuncDeclVisitor` (src/chcheck.py lines
69–84) started on a node.  A `FuncDecl` node whose coordinate file equals
the visitor's filename appends `declname node`; `none` models the
uncaught `AttributeError` aborting the traversal when `declname` fails.
`FuncDecl` nodes are never recursed into; other nodes are traversed
generically. -/
def visitDecls (filename : String) : Node → Option (List String)
  | .funcDecl coordFile ty _ =>
      if coordFile = filename then
        match declname ty with
        | some n => some [n]
        | none => none
      else
        some []
  | .funcDef _ _ _ children => visitDeclsList filename children
  | .other children => visitDeclsList filename children

/-- `generic_visit` for `FuncDeclVisitor`: visit each child in order,
propagating an `AttributeError` (`none`) from any child. -/
def visitDeclsList (filename : String) : List Node → Option (List String)
  | [] => some []
  | n :: ns =>
      match visitDecls filename n with
      | none => none
      | some s1 =>
          match visitDeclsList filename ns with
          | none => none
          | some s2 => some (s1 ++ s2)
end

/-! ## POSIX path helpers (`os.path.join`, `os.path.dirname`) -/

/-- `true` when the string begins with `/`. -/
def startsWithSlash (s : String) : Bool :=
  match s.toList with
  | '/' :: _ => true
  | _ => false

/-- `true` when the string ends with `/`. -/
def endsWithSlash (s : String) : Bool :=
  match s.toList.getLast? with
  | some '/' => true
  | _ => false

/-- `os.path.join a b` for POSIX paths: an absolute `b` replaces `a`;
otherwise `b` is appended, inserting `/` unless `a` is empty or already
ends with `/`. -/
def pathJoin (a b : String) : String :=
  if startsWithSlash b then b
  else if a = "" then b
  else if endsWithSlash a then a ++ b
  else a ++ "/" ++ b

/-- `os.path.dirname p` for POSIX paths: everything up to and including the
last `/`, with trailing slashes stripped unless the head is all slashes. -/
def dirname (p : String) : String :=
  let head := (p.toList.reverse.dropWhile (fun c => c != '/')).reverse
  if head.isEmpty then ""
  else if head.all (fun c => c == '/') then String.mk head
  else String.mk ((head.reverse.dropWhile (fun c => c == '/')).reverse)

/-! ## The filesystem / invocation environment -/

/-- The parts of the operating-system environment the script reads:
`os.path.exists`, `os.path.isdir`, and `os.path.abspath(__file__)` (the
absolute path of the script file itself). -/
structure Env where
  pathExists : String → Bool
  isdir : String → Bool
  scriptPath : String

/-- Outcome of a `parse_file` call on the external pycparser:
a syntax tree, a `ParseError` (the only exception the script catches), or
any other exception (e.g. a preprocessor failure), which the script does
not catch. -/
inductive ParseResult where
  | ok (ast : Node)
  | parseError (msg : String)
  | raised (msg : String)

/-- How one invocation of the script ends: `returned` is a plain Python
`return code` from `compare_header_and_body`, `exited` is `exit(code)`,
and `raised` is an uncaught exception propagating out. -/
inductive Outcome where
  | returned (code : Int)
  | exited (code : Int)
  | raised (msg : String)
deriving Repr, DecidableEq

/-- Observable trace of one invocation: the files on which `parse_file`
was attempted (in order), the lines printed to standard output, and how
the invocation ended. -/
structure Trace where
  parsedFiles : List String
  output : List String
  outcome : Outcome
deriving Repr

/-! ## `compare_header_and_body` (src/chcheck.py lines 87–157) -/

/-- The fixed GNU-ism neutralising defines (src/chcheck.py lines 91–97),
in source order. -/
def baseCppArgs : List String :=
  ["-D__gnuc_va_list(x)=",
   "-D__attribute__(x)=",
   "-D__extension__=",
   "-D__restrict=",
   "-D__inline="]

/-- The fake-libc discovery (src/chcheck.py lines 102–111): `pycparser` in
the current working directory, else the result of
`os.path.dirname(os.path.join(os.path.abspath(__file__), 'pycparser'))`
when `os.path.isdir` accepts it.  (Note the source's nesting: `dirname`
is applied to the *join*, so the tested path is the script file itself.) -/
def pycparser_path (env : Env) : Option String :=
  if env.isdir "pycparser" then some "./pycparser"
  else if env.isdir (dirname (pathJoin env.scriptPath "pycparser")) then
    some (dirname (pathJoin env.scriptPath "pycparser"))
  else none

/-- src/chcheck.py lines 112–116: `reduce(os.path.join, [path, 'utils',
'fake_libc_include'])` when `pycparser_path` is truthy (non-`None` and
non-empty), else `None`. -/
def pycparser_lib (env : Env) : Option String :=
  match pycparser_path env with
  | some p => if p = "" then none else some (pathJoin (pathJoin p "utils") "fake_libc_include")
  | none => none

/-- The full cpp argument list (src/chcheck.py lines 91–119): the fixed
defines, then all command-line arguments except the last when more than
one was given, then `-I<fake libc>` when discovered. -/
def cpp_args (env : Env) (args : List String) : List String :=
  let base := if args.length > 1 then baseCppArgs ++ args.dropLast else baseCppArgs
  match pycparser_lib env with
  | some lib => base ++ ["-I" ++ lib]
  | none => base

/-- `[s for s in defs if s not in decls]`: the `.c` symbols missing from
the `.h` symbol list (the filtering step of src/chcheck.py line 142). -/
def defs_without_decls (defs decls : List String) : List String :=
  defs.filter (fun s => !(decls.contains s))

/-- `[s for s in decls if s not in defs]`: the `.h` symbols missing from
the `.c` symbol list (the filtering step of src/chcheck.py line 149). -/
def decls_without_defs (defs decls : List String) : List String :=
  decls.filter (fun s => !(defs.contains s))

/-- src/chcheck.py lines 142–143: `["  "+symbol for symbol in
c_visitor.symbols if symbol not in h_visitor.symbols]`, i.e. the first
diff with each element prefixed by two spaces for display. -/
def without_definition (cSymbols hSymbols : List String) : List String :=
  (defs_without_decls cSymbols hSymbols).map (fun s => "  " ++ s)

/-- src/chcheck.py lines 149–150: `["  "+symbol for symbol in
h_visitor.symbols if symbol not in c_visitor.symbols]`. -/
def without_declaration (cSymbols hSymbols : List String) : List String :=
  (decls_without_defs cSymbols hSymbols).map (fun s => "  " ++ s)

/-- Header line printed above the first diff (src/chcheck.py line 145). -/
def reportHeader1 (module : String) : String :=
  "Externally visible definitions in \x27" ++ module ++
    ".c\x27 that are not in \x27" ++ module ++ ".h\x27:"

/-- Header line printed above the second diff (src/chcheck.py line 152). -/
def reportHeader2 (module : String) : String :=
  "Declarations in \x27" ++ module ++
    ".h\x27 that have no externally visible definition in \x27" ++ module ++ ".c\x27:"

/-- The comparison and report stage of `compare_header_and_body`
(src/chcheck.py lines 142–157): the printed lines and the return code.
Each non-empty diff is printed under its header (the first followed by a
blank line, from the bare `print()`); the return is `0` when both diffs
are empty and `-1` otherwise. -/
def compareSymbols (module : String) (cSymbols hSymbols : List String) :
    List String × Int :=
  let wd := without_definition cSymbols hSymbols
  let out1 := if wd.length > 0 then reportHeader1 module :: (wd ++ [""]) else []
  let wc := without_declaration cSymbols hSymbols
  let out2 := if wc.length > 0 then reportHeader2 module :: wc else []
  (out1 ++ out2, if wc.length = 0 ∧ wd.length = 0 then 0 else -1)

/-- The parse-error message (src/chcheck.py lines 127 and 134):
`"ERROR processing {}: {} - C99 parse error".format(path, e)`. -/
def parseErrorMsg (path e : String) : String :=
  "ERROR processing " ++ path ++ ": " ++ e ++ " - C99 parse error"

/-- `compare_header_and_body(args)` (src/chcheck.py lines 87–157), with
the external parser supplied as an oracle `parse` taking the file path and
the cpp argument list.  A `ParseError` on either file prints the message
and exits `-1`; the `.c` file is parsed first, and only on its success is
the `.h` file parsed.  Any other exception from the parser — or the
`AttributeError` that `FuncDeclVisitor.declname` can raise — propagates
uncaught.  (`args` is `sys.argv[1:]`, always non-empty when called from
`__main__`; `args[-1]` is embedded as `getLastD ""`.) -/
def compare_header_and_body (env : Env) (parse : String → List String → ParseResult)
    (args : List String) : Trace :=
  let cppArgs := cpp_args env args
  let module := args.getLastD ""
  match parse (module ++ ".c") cppArgs with
  | .parseError e =>
      ⟨[module ++ ".c"], [parseErrorMsg (module ++ ".c") e], .exited (-1)⟩
  | .raised e =>
      ⟨[module ++ ".c"], [], .raised e⟩
  | .ok definitionsAst =>
    match parse (module ++ ".h") cppArgs with
    | .parseError e =>
        ⟨[module ++ ".c", module ++ ".h"], [parseErrorMsg (module ++ ".h") e], .exited (-1)⟩
    | .raised e =>
        ⟨[module ++ ".c", module ++ ".h"], [], .raised e⟩
    | .ok declarationsAst =>
      let cSymbols := visitDefs (module ++ ".c") definitionsAst
      match visitDecls (module ++ ".h") declarationsAst with
      | none => ⟨[module ++ ".c", module ++ ".h"], [], .raised "AttributeError"⟩
      | some hSymbols =>
          let r := compareSymbols module cSymbols hSymbols
          ⟨[module ++ ".c", module ++ ".h"], r.1, .returned r.2⟩

/-! ## The CLI driver (`__main__`, src/chcheck.py lines 190–209) -/

/-- The text printed by `usage()` (src/chcheck.py lines 160–187). -/
def usageText : String :=
  "\nUsage:\n" ++
  "    chcheck.py \x7b <cpp_directive> \x7d <module>\n\n" ++
  "    <cpp_directive>: any \x27cpp\x27 directive but most useful are e.g.\n" ++
  "                     \"-I <directory>\" to ensure cpp finds files and\n" ++
  "                     \"-D <define>\" to create an inline define\n\n" ++
  "    <module>:        filename which will be appended with \x27.c\x27 and \x27.h\x27\n\n" ++
  "    chcheck checks the declarations in a C header file and checks them\n" ++
  "    against the content of the corresponding \x27.c\x27 file.\n\n" ++
  "    NOTE: you should give the module name, not a filename with \x27.c\x27 or\n" ++
  "    \x27.h\x27 extension. It is assumed that both exists and they are\n" ++
  "    checked against each other.\n\n" ++
  "    If chcheck encounters parse errors and they look like gnu-isms you\n" ++
  "    should get a copy of the source for pycparser (on which\n" ++
  "    cgreen-mocker is built). In it you will find a \x27fake_libc_include\x27\n" ++
  "    which helps. Create a symbolic link named \x27pycparser\x27 that links to\n" ++
  "    the root of pycparser source and chcheck will find it by\n" ++
  "    itself.\n\n" ++
  "    You can find pycparser at https://github.com/eliben/pycparser\n\n"

/-- The trace of `usage(); exit(-1)`: no parse attempted. -/
def usageTrace : Trace := ⟨[], [usageText], .exited (-1)⟩

/-- Python `s[-2:]`: the last two characters (the whole string when it is
shorter), used for the extension check on the trailing argument
(src/chcheck.py line 196). -/
def lastTwo (s : String) : String :=
  String.mk (s.toList.drop (s.toList.length - 2))

/-- The missing-file message (src/chcheck.py line 204). -/
def missingFilesMsg (module : String) : String :=
  "ERROR: both \x27" ++ module ++ ".c\x27 and \x27" ++ module ++ ".h\x27 must exist"

/-- The `__main__` block (src/chcheck.py lines 190–209).  `argv` models
`sys.argv` (its head is the interpreter-supplied program name): no user
argument → usage, exit `-1`; trailing argument with a `.c`/`.h` extension
→ usage, exit `-1`; `<module>.c` or `<module>.h` missing → message, exit
`-1`; otherwise `exit(compare_header_and_body(sys.argv[1:]))`. -/
def chcheckMain (env : Env) (parse : String → List String → ParseResult)
    (argv : List String) : Trace :=
  if ¬ argv.length > 1 then usageTrace
  else
    let possibleExtension := lastTwo (argv.getLastD "")
    if possibleExtension = ".c" ∨ possibleExtension = ".h" then usageTrace
    else
      let module := argv.getLastD ""
      if !(env.pathExists (module ++ ".c")) || !(env.pathExists (module ++ ".h")) then
        ⟨[], [missingFilesMsg module], .exited (-1)⟩
      else
        let t := compare_header_and_body env parse (argv.drop 1)
        match t.outcome with
        | .returned c => { t with outcome := .exited c }
        | _ => t

/-! ## Spec-side views of the traversals

These definitions are not part of the program; they name the nodes a
traversal reaches (or all nodes of a tree) so that the visitors' outputs
can be characterised. -/

mutual
/-- The facets `(coord.file, decl.name, decl.storage)` of the `FuncDef`
nodes that `FuncDefVisitor` actually dispatches `visit_FuncDef` on, in
traversal (preorder) order: dispatch stops below a `FuncDef`. -/
def reachedFuncDefs : Node → List (String × String × List String)
  | .funcDef coordFile declName storage _ => [(coordFile, declName, storage)]
  | .funcDecl _ _ children => reachedFuncDefsList children
  | .other children => reachedFuncDefsList children

/-- List version of `reachedFuncDefs`. -/
def reachedFuncDefsList : List Node → List (String × String × List String)
  | [] => []
  | n :: ns => reachedFuncDefs n ++ reachedFuncDefsList ns
end

mutual
/-- The facets of *all* `FuncDef` nodes of a tree, in preorder, children
included. -/
def allFuncDefs : Node → List (String × String × List String)
  | .funcDef coordFile declName storage children =>
      (coordFile, declName, storage) :: allFuncDefsList children
  | .funcDecl _ _ children => allFuncDefsList children
  | .other children => allFuncDefsList children

/-- List version of `allFuncDefs`. -/
def allFuncDefsList : List Node → List (String × String × List String)
  | [] => []
  | n :: ns => allFuncDefs n ++ allFuncDefsList ns
end

mutual
/-- Whether a tree contains a `FuncDef` node anywhere. -/
def hasFuncDef : Node → Bool
  | .funcDef _ _ _ _ => true
  | .funcDecl _ _ children => hasFuncDefList children
  | .other children => hasFuncDefList children

/-- List version of `hasFuncDef`. -/
def hasFuncDefList : List Node → Bool
  | [] => false
  | n :: ns => hasFuncDef n || hasFuncDefList ns
end

mutual
/-- Well-formedness of a tree as pycparser produces it for C input: a
function definition never contains another function definition (C99 has
no nested function definitions). -/
def wfNoNestedFuncDef : Node → Bool
  | .funcDef _ _ _ children => !hasFuncDefList children
  | .funcDecl _ _ children => wfNoNestedFuncDefList children
  | .other children => wfNoNestedFuncDefList children

/-- List version of `wfNoNestedFuncDef`. -/
def wfNoNestedFuncDefList : List Node → Bool
  | [] => true
  | n :: ns => wfNoNestedFuncDef n && wfNoNestedFuncDefList ns
end

mutual
/-- The facets `(coord.file, type chain)` of the `FuncDecl` nodes that
`FuncDeclVisitor` actually dispatches `visit_FuncDecl` on, in traversal
order: dispatch stops below a `FuncDecl`, so a function declarator nested
inside another one (e.g. a function-pointer parameter) is not reached. -/
def reachedFuncDecls : Node → List (String × TypeChain)
  | .funcDecl coordFile ty _ => [(coordFile, ty)]
  | .funcDef _ _ _ children => reachedFuncDeclsList children
  | .other children => reachedFuncDeclsList children

/-- List version of `reachedFuncDecls`. -/
def reachedFuncDeclsList : List Node → List (String × TypeChain)
  | [] => []
  | n :: ns => reachedFuncDecls n ++ reachedFuncDeclsList ns
end

mutual
/-- The facets of *all* `FuncDecl` nodes of a tree, in preorder. -/
def allFuncDecls : Node → List (String × TypeChain)
  | .funcDecl coordFile ty children => (coordFile, ty) :: allFuncDeclsList children
  | .funcDef _ _ _ children => allFuncDeclsList children
  | .other children => allFuncDeclsList children

/-- List version of `allFuncDecls`. -/
def allFuncDeclsList : List Node → List (String × TypeChain)
  | [] => []
  | n :: ns => allFuncDecls n ++ allFuncDeclsList ns
end

/-- What `FuncDeclVisitor` does with a sequence of reached `FuncDecl`
facets: for each one whose coordinate file matches, resolve `declname`
(`none` aborts with the `AttributeError`) and append it. -/
def collectDecls (filename : String) : List (String × TypeChain) → Option (List String)
  | [] => some []
  | (coordFile, ty) :: rest =>
      if coordFile = filename then
        match declname ty with
        | none => none
        | some n =>
            match collectDecls filename rest with
            | none => none
            | some s => some (n :: s)
      else collectDecls filename rest

/-- The per-node filter `visit_FuncDef` applies: keep the name when the
coordinate file matches and `"static"` is not among the storage
qualifiers. -/
def defFilter (filename : String) (x : String × String × List String) : Option String :=
  if x.1 = filename ∧ "static" ∉ x.2.2 then some x.2.1 else none

/-- `n` `PtrDecl` wrappers around a type chain. -/
def wrapPtr : Nat → TypeChain → TypeChain
  | 0, t => t
  | n + 1, t => .ptrDecl (wrapPtr n t)

/-! ## Helper lemmas about the traversals -/

mutual
/-- `FuncDefVisitor`'s symbol list is exactly the per-node filter mapped
over the reached `FuncDef` nodes, in traversal order. -/
theorem visitDefs_eq_filterMap (filename : String) :
    ∀ t : Node, visitDefs filename t = (reachedFuncDefs t).filterMap (defFilter filename)
  | .funcDef cf dn st _cs => by
      by_cases h : cf = filename ∧ "static" ∉ st <;>
        simp [visitDefs, reachedFuncDefs, defFilter, h]
  | .funcDecl _ _ cs => by
      simpa [visitDefs, reachedFuncDefs] using visitDefsList_eq_filterMap filename cs
  | .other cs => by
      simpa [visitDefs, reachedFuncDefs] using visitDefsList_eq_filterMap filename cs

/-- List version of `visitDefs_eq_filterMap`. -/
theorem visitDefsList_eq_filterMap (filename : String) :
    ∀ ns : List Node,
      visitDefsList filename ns = (reachedFuncDefsList ns).filterMap (defFilter filename)
  | [] => by simp [visitDefsList, reachedFuncDefsList]
  | n :: ns => by
      simp [visitDefsList, reachedFuncDefsList, List.filterMap_append,
        visitDefs_eq_filterMap filename n, visitDefsList_eq_filterMap filename ns]
end

mutual
/-- A tree without any `FuncDef` node contributes no `FuncDef` facets. -/
theorem allFuncDefs_nil_of_not_has :
    ∀ t : Node, hasFuncDef t = false → allFuncDefs t = []
  | .funcDef _ _ _ _, h => by simp [hasFuncDef] at h
  | .funcDecl _ _ cs, h => by
      simpa [allFuncDefs] using
        allFuncDefsList_nil_of_not_has cs (by simpa [hasFuncDef] using h)
  | .other cs, h => by
      simpa [allFuncDefs] using
        allFuncDefsList_nil_of_not_has cs (by simpa [hasFuncDef] using h)

/-- List version of `allFuncDefs_nil_of_not_has`. -/
theorem allFuncDefsList_nil_of_not_has :
    ∀ ns : List Node, hasFuncDefList ns = false → allFuncDefsList ns = []
  | [], _ => rfl
  | n :: ns, h => by
      have h' : hasFuncDef n = false ∧ hasFuncDefList ns = false := by
        simpa [hasFuncDefList] using h
      simp [allFuncDefsList, allFuncDefs_nil_of_not_has n h'.1,
        allFuncDefsList_nil_of_not_has ns h'.2]
end

mutual
/-- On a tree without nested function definitions (as pycparser produces
for C input), the reached `FuncDef` nodes are all of them. -/
theorem allFuncDefs_eq_reached :
    ∀ t : Node, wfNoNestedFuncDef t = true → allFuncDefs t = reachedFuncDefs t
  | .funcDef _ _ _ cs, h => by
      have h' : hasFuncDefList cs = false := by
        simpa [wfNoNestedFuncDef] using h
      simp [allFuncDefs, reachedFuncDefs, allFuncDefsList_nil_of_not_has cs h']
  | .funcDecl _ _ cs, h => by
      simpa [allFuncDefs, reachedFuncDefs] using
        allFuncDefsList_eq_reached cs (by simpa [wfNoNestedFuncDef] using h)
  | .other cs, h => by
      simpa [allFuncDefs, reachedFuncDefs] using
        allFuncDefsList_eq_reached cs (by simpa [wfNoNestedFuncDef] using h)

/-- List version of `allFuncDefs_eq_reached`. -/
theorem allFuncDefsList_eq_reached :
    ∀ ns : List Node, wfNoNestedFuncDefList ns = true →
      allFuncDefsList ns = reachedFuncDefsList ns
  | [], _ => rfl
  | n :: ns, h => by
      have h' : wfNoNestedFuncDef n = true ∧ wfNoNestedFuncDefList ns = true := by
        simpa [wfNoNestedFuncDefList] using h
      simp [allFuncDefsList, reachedFuncDefsList,
        allFuncDefs_eq_reached n h'.1, allFuncDefsList_eq_reached ns h'.2]
end

/-- `collectDecls` over an appended facet list: process the first part,
then the second, concatenating on success and propagating failure. -/
theorem collectDecls_append (filename : String) (xs ys : List (String × TypeChain)) :
    collectDecls filename (xs ++ ys) =
      (collectDecls filename xs).bind
        (fun s1 => (collectDecls filename ys).map (fun s2 => s1 ++ s2)) := by
  induction xs with
  | nil =>
      rcases h : collectDecls filename ys with _ | s <;> simp [collectDecls, h]
  | cons x xs ih =>
      obtain ⟨cf, ty⟩ := x
      by_cases h : cf = filename
      · rcases hd : declname ty with _ | n <;>
          rcases h1 : collectDecls filename xs with _ | s1 <;>
            rcases h2 : collectDecls filename ys with _ | s2 <;>
              simp [collectDecls, h, hd, h1, h2, ih]
      · simp [collectDecls, h, ih]

mutual
/-- `FuncDeclVisitor`'s result is exactly `collectDecls` applied to the
reached `FuncDecl` nodes, in traversal order. -/
theorem visitDecls_eq_collect (filename : String) :
    ∀ t : Node, visitDecls filename t = collectDecls filename (reachedFuncDecls t)
  | .funcDecl cf ty _cs => by
      by_cases h : cf = filename
      · rcases hd : declname ty with _ | n <;>
          simp [visitDecls, reachedFuncDecls, collectDecls, h, hd]
      · simp [visitDecls, reachedFuncDecls, collectDecls, h]
  | .funcDef _ _ _ cs => by
      simpa [visitDecls, reachedFuncDecls] using visitDeclsList_eq_collect filename cs
  | .other cs => by
      simpa [visitDecls, reachedFuncDecls] using visitDeclsList_eq_collect filename cs

/-- List version of `visitDecls_eq_collect`. -/
theorem visitDeclsList_eq_collect (filename : String) :
    ∀ ns : List Node,
      visitDeclsList filename ns = collectDecls filename (reachedFuncDeclsList ns)
  | [] => rfl
  | n :: ns => by
      simp only [visitDeclsList, reachedFuncDeclsList, collectDecls_append,
        visitDecls_eq_collect filename n, visitDeclsList_eq_collect filename ns]
      rcases h1 : collectDecls filename (reachedFuncDecls n) with _ | s1 <;>
        rcases h2 : collectDecls filename (reachedFuncDeclsList ns) with _ | s2 <;>
          simp [h1, h2]
end

/-! ## Concrete objects shared by the witnesses -/

/-- An environment in which nothing exists on disk and the script lives at
`/opt/chcheck.py`. -/
def envW : Env := ⟨fun _ => false, fun _ => false, "/opt/chcheck.py"⟩

/-- A parser oracle that accepts every file with an empty tree. -/
def parseOkW : String → List String → ParseResult := fun _ _ => .ok (.other [])

/-- A `.c` tree: a non-static `foo` and a static `bar`, both in `m.c`. -/
def cAstW : Node :=
  .other [.funcDef "m.c" "foo" [] [], .funcDef "m.c" "bar" ["static"] []]

/-- A `.h` tree: a single declaration of `bar` in `m.h`. -/
def hAstW : Node := .other [.funcDecl "m.h" (.leaf (some "bar")) []]

/-- A parser oracle returning `cAstW` for `m.c` and `hAstW` otherwise. -/
def parseTwoW : String → List String → ParseResult := fun f _ =>
  if f = "m.c" then .ok cAstW else .ok hAstW

/-- A parser oracle that fails with a `ParseError` on `m.c`. -/
def parseErrW : String → List String → ParseResult := fun f _ =>
  if f = "m.c" then .parseError "syntax error at line 3" else .ok (.other [])

/-- A parser oracle that raises a non-`ParseError` exception on `m.c`
(e.g. the preprocessor could not be run). -/
def parseRaiseW : String → List String → ParseResult := fun f _ =>
  if f = "m.c" then .raised "unable to invoke cpp" else .ok (.other [])

/-- A `.c` tree with non-static definitions `foo` (in `m.c`), a static
`bar`, and a `baz` from an included file. -/
def defTreeW : Node :=
  .other [.funcDef "m.c" "foo" [] [], .funcDef "m.c" "bar" ["static"] [],
          .funcDef "lib.h" "baz" [] []]

/-! ## The claims -/

/-- C1: for every pair of collected symbol lists `defs` (from the `.c`
file) and `decls` (from the `.h` file), the comparison stage of
`compare_header_and_body` (lines 142–157) computes exactly the two
one-directional differences `defs_without_decls` and `decls_without_defs`,
prints each non-empty difference (two-space indented) under its fixed
header, and returns `0` iff both differences are empty, `-1` otherwise;
and on a successful double parse `compare_header_and_body` returns that
comparison's output and return code. -/
theorem compare_reports_diffs_and_returns_zero_iff_empty
    (module : String) (defs decls : List String)
    (env : Env) (parse : String → List String → ParseResult) (args : List String)
    (cAst hAst : Node) (hSymbols : List String) :
    ((compareSymbols module defs decls).1 =
      (if defs_without_decls defs decls = [] then []
       else reportHeader1 module ::
         ((defs_without_decls defs decls).map (fun s => "  " ++ s) ++ [""])) ++
      (if decls_without_defs defs decls = [] then []
       else reportHeader2 module ::
         (decls_without_defs defs decls).map (fun s => "  " ++ s))) ∧
    ((compareSymbols module defs decls).2 = 0 ↔
      defs_without_decls defs decls = [] ∧ decls_without_defs defs decls = []) ∧
    ((compareSymbols module defs decls).2 = 0 ∨
      (compareSymbols module defs decls).2 = -1) ∧
    (args.getLastD "" = module →
      parse (module ++ ".c") (cpp_args env args) = .ok cAst →
      parse (module ++ ".h") (cpp_args env args) = .ok hAst →
      visitDecls (module ++ ".h") hAst = some hSymbols →
      compare_header_and_body env parse args =
        ⟨[module ++ ".c", module ++ ".h"],
         (compareSymbols module (visitDefs (module ++ ".c") cAst) hSymbols).1,
         .returned ((compareSymbols module (visitDefs (module ++ ".c") cAst) hSymbols).2)⟩) := by
  refine ⟨?_, ?_, ?_, ?_⟩
  · by_cases h1 : defs_without_decls defs decls = [] <;>
      by_cases h2 : decls_without_defs defs decls = [] <;>
        simp [compareSymbols, without_definition, without_declaration, h1, h2,
          List.length_pos]
  · by_cases h1 : defs_without_decls defs decls = [] <;>
      by_cases h2 : decls_without_defs defs decls = [] <;>
        simp [compareSymbols, without_definition, without_declaration, h1, h2,
          List.length_eq_zero]
  · by_cases h1 : defs_without_decls defs decls = [] <;>
      by_cases h2 : decls_without_defs defs decls = [] <;>
        simp [compareSymbols, without_definition, without_declaration, h1, h2,
          List.length_eq_zero]
  · intro hm hc hh hv
    have hm' : args.getLast?.getD "" = module := by simpa using hm
    simp [compare_header_and_body, hm', hc, hh, hv]

/-- C1 witness: a concrete end-to-end run on `module = "m"`, with `foo`
defined non-static in `m.c` and only `bar` declared in `m.h`. -/
theorem compare_reports_diffs_witness :
    compare_header_and_body envW parseTwoW ["m"] =
      ⟨["m" ++ ".c", "m" ++ ".h"],
       (compareSymbols "m" (visitDefs ("m" ++ ".c") cAstW) ["bar"]).1,
       .returned ((compareSymbols "m" (visitDefs ("m" ++ ".c") cAstW) ["bar"]).2)⟩ :=
  (compare_reports_diffs_and_returns_zero_iff_empty "m" [] [] envW parseTwoW ["m"]
    cAstW hAstW ["bar"]).2.2.2 rfl rfl rfl rfl

/-- C2: on a tree without nested function definitions (as pycparser
produces for C input), `FuncDefVisitor` appends a `FuncDef` node's name
iff the node's coordinate file equals the `.c` filename and its storage
list does not contain `"static"`; consequently every collected name comes
from a non-static definition of the processed file. -/
theorem funcDef_collected_iff_local_and_nonstatic
    (filename : String) (t : Node) (hwf : wfNoNestedFuncDef t = true) :
    visitDefs filename t = (allFuncDefs t).filterMap (defFilter filename) ∧
    ∀ n, n ∈ visitDefs filename t ↔
      ∃ x ∈ allFuncDefs t, x.1 = filename ∧ "static" ∉ x.2.2 ∧ x.2.1 = n := by
  have h1 : visitDefs filename t = (allFuncDefs t).filterMap (defFilter filename) := by
    rw [allFuncDefs_eq_reached t hwf]; exact visitDefs_eq_filterMap filename t
  refine ⟨h1, fun n => ?_⟩
  rw [h1, List.mem_filterMap]
  constructor
  · rintro ⟨x, hx, hfx⟩
    by_cases hc : x.1 = filename ∧ "static" ∉ x.2.2
    · exact ⟨x, hx, hc.1, hc.2, by simpa [defFilter, hc] using hfx⟩
    · simp [defFilter, hc] at hfx
  · rintro ⟨x, hx, hc1, hc2, hval⟩
    exact ⟨x, hx, by simp [defFilter, hc1, hc2, hval]⟩

/-- C2 witness: on a concrete `.c` tree, the collected list is the
filtered name list (here `["foo"]`: `bar` is static, `baz` from another
file). -/
theorem funcDef_collected_witness :
    visitDefs "m.c" defTreeW = (allFuncDefs defTreeW).filterMap (defFilter "m.c") :=
  (funcDef_collected_iff_local_and_nonstatic "m.c" defTreeW rfl).1

/-- A header tree: a declaration of `h` whose parameter list contains a
nested function declarator `cb` (a function-pointer parameter), both with
coordinates in `m.h`. -/
def nestedDeclTree : Node :=
  .funcDecl "m.h" (.leaf (some "h"))
    [.other [.funcDecl "m.h" (.leaf (some "cb")) []]]

/-- C3 counterexample: `nestedDeclTree` contains two function-declarator
nodes whose coordinate file is `m.h`, and the inner one resolves to
`cb`, yet the collector appends only `h`: `visit_FuncDecl` does not
recurse, so a declarator nested inside another is never visited. -/
theorem nested_funcDecl_not_collected :
    allFuncDecls nestedDeclTree =
      [("m.h", .leaf (some "h")), ("m.h", .leaf (some "cb"))] ∧
    declname (.leaf (some "cb")) = some "cb" ∧
    visitDecls "m.h" nestedDeclTree = some ["h"] ∧
    (["h"] : List String).contains "cb" = false := by
  refine ⟨rfl, rfl, rfl, by decide⟩

/-- C3 (amended): for every function-declarator node *reached by the
dispatch* — i.e. not nested inside another function declarator — the
collector appends, when the node's coordinate file equals the `.h`
filename, the name obtained by following pointer-declarator wrappers to
the innermost leaf's `declname`, with no storage-class filtering; nodes
below a reached declarator are not visited. -/
theorem funcDecl_collection_follows_dispatch (filename : String) (t : Node) :
    visitDecls filename t = collectDecls filename (reachedFuncDecls t) :=
  visitDecls_eq_collect filename t

/-- C4: a `ParseError` on the `.c` file prints `ERROR processing
<module>.c: <msg> - C99 parse error` and exits `-1` with no attempt to
parse the `.h` file (the trace records only `<module>.c`); a `ParseError`
on the `.h` file, after a successful `.c` parse, prints the analogous
message and exits `-1`. -/
theorem parse_error_prints_and_exits
    (env : Env) (parse : String → List String → ParseResult)
    (args : List String) (module e : String)
    (hm : args.getLastD "" = module) :
    (parse (module ++ ".c") (cpp_args env args) = .parseError e →
      compare_header_and_body env parse args =
        ⟨[module ++ ".c"], [parseErrorMsg (module ++ ".c") e], .exited (-1)⟩) ∧
    (∀ cAst : Node, parse (module ++ ".c") (cpp_args env args) = .ok cAst →
      parse (module ++ ".h") (cpp_args env args) = .parseError e →
      compare_header_and_body env parse args =
        ⟨[module ++ ".c", module ++ ".h"], [parseErrorMsg (module ++ ".h") e],
         .exited (-1)⟩) := by
  have hm' : args.getLast?.getD "" = module := by simpa using hm
  constructor
  · intro hc
    simp [compare_header_and_body, hm', hc]
  · intro cAst hc hh
    simp [compare_header_and_body, hm', hc, hh]

/-- C4 witness: a concrete parse error on `m.c`. -/
theorem parse_error_witness :
    compare_header_and_body envW parseErrW ["m"] =
      ⟨["m" ++ ".c"], [parseErrorMsg ("m" ++ ".c") "syntax error at line 3"],
       .exited (-1)⟩ :=
  (parse_error_prints_and_exits envW parseErrW ["m"] "m" "syntax error at line 3"
    rfl).1 rfl

/-- C9: `declname` terminates on every finite chain of pointer-declarator
wrappers and returns the innermost leaf's `declname`; when the leaf lacks
the attribute the call fails with the (modelled) `AttributeError` —
propagated by the visitor as an unreported failure — rather than any
reported error. -/
theorem declname_follows_ptr_chain (n : Nat) (d : String) (filename : String) :
    declname (wrapPtr n (.leaf (some d))) = some d ∧
    declname (wrapPtr n (.leaf none)) = none ∧
    visitDecls filename (.funcDecl filename (wrapPtr n (.leaf none)) []) = none := by
  have h1 : ∀ dn : Option String, declname (wrapPtr n (.leaf dn)) = dn := by
    intro dn
    induction n with
    | zero => rfl
    | succ k ih => simpa [wrapPtr, declname] using ih
  refine ⟨h1 (some d), h1 none, ?_⟩
  simp [visitDecls, h1 none]

/-- C10: a non-`ParseError` exception from either `parse_file` call
propagates out of `compare_header_and_body` uncaught: nothing is printed
and the `exit(-1)` path is never reached. -/
theorem non_parse_error_propagates
    (env : Env) (parse : String → List String → ParseResult)
    (args : List String) (module e : String)
    (hm : args.getLastD "" = module) :
    (parse (module ++ ".c") (cpp_args env args) = .raised e →
      compare_header_and_body env parse args = ⟨[module ++ ".c"], [], .raised e⟩) ∧
    (∀ cAst : Node, parse (module ++ ".c") (cpp_args env args) = .ok cAst →
      parse (module ++ ".h") (cpp_args env args) = .raised e →
      compare_header_and_body env parse args =
        ⟨[module ++ ".c", module ++ ".h"], [], .raised e⟩) := by
  have hm' : args.getLast?.getD "" = module := by simpa using hm
  constructor
  · intro hc
    simp [compare_header_and_body, hm', hc]
  · intro cAst hc hh
    simp [compare_header_and_body, hm', hc, hh]

/-- C10 witness: a concrete preprocessor failure on `m.c` propagates. -/
theorem non_parse_error_witness :
    compare_header_and_body envW parseRaiseW ["m"] =
      ⟨["m" ++ ".c"], [], .raised "unable to invoke cpp"⟩ :=
  (non_parse_error_propagates envW parseRaiseW ["m"] "m" "unable to invoke cpp"
    rfl).1 rfl

/-- An environment with no `pycparser` directory in the current working
directory, the script at `/opt/chcheck.py`, and a `pycparser` directory
right beside it (`/opt/pycparser` is the only directory). -/
def envSibling : Env :=
  ⟨fun _ => false, fun p => p == "/opt/pycparser", "/opt/chcheck.py"⟩

/-- C5: in `envSibling` the sibling `pycparser` directory exists
(`/opt/pycparser`) and none exists in the current working directory, yet
no fake-libc include path is appended: the `elif` of lines 107–111
computes `os.path.dirname(os.path.join(os.path.abspath(__file__),
'pycparser'))`, which is `abspath(__file__)` itself — the script *file* —
so its `isdir` test can never succeed and `pycparser_path` stays `None`,
leaving `cpp_args` at the base defines. -/
theorem sibling_pycparser_never_discovered :
    envSibling.isdir "pycparser" = false ∧
    envSibling.isdir "/opt/pycparser" = true ∧
    dirname (pathJoin envSibling.scriptPath "pycparser") = envSibling.scriptPath ∧
    envSibling.isdir (dirname (pathJoin envSibling.scriptPath "pycparser")) = false ∧
    pycparser_path envSibling = none ∧
    pycparser_lib envSibling = none ∧
    cpp_args envSibling ["m"] = baseCppArgs := by
  refine ⟨rfl, by decide, by decide, by decide, ?_, ?_, ?_⟩ <;> rfl

/-- C6: with no user argument, and likewise when the trailing argument
already ends in `.c` or `.h` (its last two characters, Python `s[-2:]`,
equal the extension), the driver prints the usage text and exits `-1`
without attempting to parse any file (the trace's `parsedFiles` is
empty). -/
theorem usage_error_exits_without_parsing
    (env : Env) (parse : String → List String → ParseResult)
    (prog last : String) (args : List String) :
    chcheckMain env parse [prog] = usageTrace ∧
    usageTrace = ⟨[], [usageText], .exited (-1)⟩ ∧
    (args ≠ [] → (prog :: args).getLastD "" = last →
      lastTwo last = ".c" ∨ lastTwo last = ".h" →
      chcheckMain env parse (prog :: args) = usageTrace) := by
  refine ⟨by simp [chcheckMain], rfl, ?_⟩
  intro hne hl hext
  have hlen : (prog :: args).length > 1 := by
    cases args with
    | nil => cases hne rfl
    | cons a as => simp [List.length_cons]
  simp only [chcheckMain, hl]
  rw [if_neg (not_not_intro hlen), if_pos hext]

/-- C6 witness: `chcheck.py m.c` (trailing argument with a `.c`
extension) prints usage and exits `-1` with no parse attempted. -/
theorem usage_error_witness :
    chcheckMain envW parseOkW ["chcheck.py", "m.c"] = usageTrace :=
  (usage_error_exits_without_parsing envW parseOkW "chcheck.py" "m.c" ["m.c"]).2.2
    (by simp) rfl (Or.inl rfl)

/-- C7: when the trailing module argument passes the extension check but
`<module>.c` or `<module>.h` does not exist, the driver prints the
missing-file message and exits `-1` without invoking the parser on either
file (the trace's `parsedFiles` is empty). -/
theorem missing_file_exits_without_parsing
    (env : Env) (parse : String → List String → ParseResult)
    (prog last : String) (args : List String)
    (hne : args ≠ []) (hl : (prog :: args).getLastD "" = last)
    (hext : ¬ (lastTwo last = ".c" ∨ lastTwo last = ".h"))
    (hmiss : env.pathExists (last ++ ".c") = false ∨
      env.pathExists (last ++ ".h") = false) :
    chcheckMain env parse (prog :: args) =
      ⟨[], [missingFilesMsg last], .exited (-1)⟩ := by
  have hlen : (prog :: args).length > 1 := by
    cases args with
    | nil => cases hne rfl
    | cons a as => simp [List.length_cons]
  have hcond : (!(env.pathExists (last ++ ".c")) || !(env.pathExists (last ++ ".h"))) =
      true := by
    rcases hmiss with h | h <;> simp [h]
  simp only [chcheckMain, hl]
  rw [if_neg (not_not_intro hlen), if_neg hext, if_pos hcond]

/-- C7 witness: `chcheck.py m` in an environment where neither `m.c` nor
`m.h` exists. -/
theorem missing_file_witness :
    chcheckMain envW parseOkW ["chcheck.py", "m"] =
      ⟨[], [missingFilesMsg "m"], .exited (-1)⟩ :=
  missing_file_exits_without_parsing envW parseOkW "chcheck.py" "m" ["m"]
    (by simp) rfl (by decide) (Or.inl rfl)

/-- C8: each collector's symbol list records the qualifying names in
traversal order with duplicates kept (it equals the per-node rule mapped
over the reached nodes in traversal order), each one-directional diff is
an order-preserving subsequence of its source symbol list with the count
of every surviving symbol preserved (no deduplication), and the displayed
diff lists are exactly those diffs with a two-space display prefix. -/
theorem symbol_lists_ordered_and_diffs_subsequences
    (filename : String) (t : Node) (defs decls : List String) (s : String) :
    visitDefs filename t = (reachedFuncDefs t).filterMap (defFilter filename) ∧
    visitDecls filename t = collectDecls filename (reachedFuncDecls t) ∧
    List.Sublist (defs_without_decls defs decls) defs ∧
    List.Sublist (decls_without_defs defs decls) decls ∧
    (s ∉ decls → (defs_without_decls defs decls).count s = defs.count s) ∧
    (s ∉ defs → (decls_without_defs defs decls).count s = decls.count s) ∧
    without_definition defs decls =
      (defs_without_decls defs decls).map (fun x => "  " ++ x) ∧
    without_declaration defs decls =
      (decls_without_defs defs decls).map (fun x => "  " ++ x) := by
  refine ⟨visitDefs_eq_filterMap filename t, visitDecls_eq_collect filename t,
    List.filter_sublist _, List.filter_sublist _, ?_, ?_, rfl, rfl⟩
  · intro hs
    exact List.count_filter (by simpa using hs)
  · intro hs
    exact List.count_filter (by simpa using hs)

/-- C8 witness: with `defs = ["a", "a", "b"]` and `decls = ["b"]`, the
duplicate `"a"` survives the diff twice. -/
theorem symbol_lists_witness :
    (defs_without_decls ["a", "a", "b"] ["b"]).count "a" =
      (["a", "a", "b"] : List String).count "a" :=
  (symbol_lists_ordered_and_diffs_subsequences "f" (.other []) ["a", "a", "b"] ["b"]
    "a").2.2.2.2.1 (by decide)

end Chcheck
